import Mathlib

/-!
Shallow embedding of `custom_components/foxess_em/charge/charge_service.py`
(class `ChargeService`), the daily battery charge scheduler.

The scheduler's observable behaviour is modelled by explicit state passing:
a `ServiceState` record carries the instance attributes of `ChargeService`
(`_eco_start_time`, `_eco_end_time`, `_battery_soc`, `_original_soc`,
`_cancel_listeners`, `_unload_listeners`, `_charge_active`, `_perc_target`)
together with a journal of externally visible effects:

* `registrations` — every trigger handed to the Home Assistant trigger
  substrate (`async_track_utc_time_change` / `async_track_state_change`),
  tagged with a fresh listener id standing for the cancellation handle;
* `cancelled` — every invocation of a cancellation handle, in order
  (a handle invoked twice appears twice);
* `foxCommands` — every command issued to the `FoxCloudService` collaborator;
* `batteryCalls` — every mutating call on the `BatteryController`;
* `forecastRefreshes` — the number of `forecast_controller.async_refresh` calls.

Numbers read from the battery controller (`battery_capacity_remaining`,
`charge_total`, `charge_to_perc`) are inputs of each `_set_target_soc`
invocation, modelled as rationals (exact stand-ins for Python floats: the
code only compares them and truncates one of them, both exact operations).
-/

namespace FoxessEM

/-- Python `datetime.time`'s hour/minute components (the code passes
`second=0` explicitly, so seconds are not modelled). -/
structure TimeOfDay where
  hour : ℕ
  minute : ℕ
deriving DecidableEq, Repr

/-- Python `int(q)` on a number: truncation toward zero. -/
def pyInt (q : ℚ) : ℤ := if 0 ≤ q then ⌊q⌋ else ⌈q⌉

/-- The bound methods of `ChargeService` that are handed to the trigger
substrate as callbacks. -/
inductive Callback
  | setTargetSoc
  | startForceCharge
  | stopAndHoldCharge
  | stopHold
deriving DecidableEq, Repr

/-- A trigger registration handed to the Home Assistant substrate:
either a daily time pattern (`async_track_utc_time_change`, hour/minute/second
as passed — the code can pass a negative minute) or a state-equality watch
(`async_track_state_change` with `to_state` a string). -/
inductive Trigger
  | timeChange (cb : Callback) (hour minute second : ℤ)
  | stateChange (cb : Callback) (entityId : String) (toState : String)
deriving DecidableEq, Repr

/-- Commands issued to the `FoxCloudService` collaborator. -/
inductive FoxCommand
  | startForceCharge
  | stopForceCharge
  | setMinSoc (value : ℚ)
deriving DecidableEq, Repr

/-- Mutating calls on the `BatteryController` collaborator. -/
inductive BatteryCall
  | setBoost (v : Bool)
  | setFull (v : Bool)
deriving DecidableEq, Repr

/-- The state of one `ChargeService` instance plus the effect journal. -/
structure ServiceState where
  ecoStart : TimeOfDay
  ecoEnd : TimeOfDay
  batterySoc : String
  originalSoc : ℤ
  cancelListeners : List ℕ
  unloadListeners : List ℕ
  chargeActive : Bool
  percTarget : ℚ
  registrations : List (ℕ × Trigger)
  nextId : ℕ
  cancelled : List ℕ
  foxCommands : List FoxCommand
  batteryCalls : List BatteryCall
  forecastRefreshes : ℕ
deriving DecidableEq, Repr

/-- Registering a trigger with the substrate: records it under a fresh
listener id (the cancellation handle) and returns that id. -/
def register (t : Trigger) (s : ServiceState) : ℕ × ServiceState :=
  (s.nextId,
   { s with registrations := s.registrations ++ [(s.nextId, t)],
            nextId := s.nextId + 1 })

/-- Constructor arguments of `ChargeService.__init__` (the four collaborator
objects are modelled by the effect journal, not stored). -/
structure Config where
  ecoStart : TimeOfDay
  ecoEnd : TimeOfDay
  batterySoc : String
  originalSoc : ℤ
deriving DecidableEq, Repr

/-- Modelled from the spec: `UnloadController.__init__`
(`common/unload_controller.py`, not under `src/`) initialises the lifetime
unload-listener list; per §3 lifetime listeners are registered only at
construction, so the list starts empty. -/
def unloadControllerInitListeners : List ℕ := []

/-- `ChargeService.__init__`: initialises the attributes and registers the
two lifetime daily triggers — `_set_target_soc` at
`(eco_start.hour, eco_start.minute - 5, 0)` (note the bare `- 5` on the
minute field) and `_stop_hold` at `(eco_end.hour, eco_end.minute, 0)` —
appending both handles to `_unload_listeners` only. -/
def initService (cfg : Config) : ServiceState :=
  let s0 : ServiceState :=
    { ecoStart := cfg.ecoStart
      ecoEnd := cfg.ecoEnd
      batterySoc := cfg.batterySoc
      originalSoc := cfg.originalSoc
      cancelListeners := []
      unloadListeners := unloadControllerInitListeners
      chargeActive := false
      percTarget := 0
      registrations := []
      nextId := 0
      cancelled := []
      foxCommands := []
      batteryCalls := []
      forecastRefreshes := 0 }
  let r1 := register
    (.timeChange .setTargetSoc cfg.ecoStart.hour ((cfg.ecoStart.minute : ℤ) - 5) 0) s0
  let s1 := { r1.2 with unloadListeners := r1.2.unloadListeners ++ [r1.1] }
  let r2 := register
    (.timeChange .stopHold cfg.ecoEnd.hour cfg.ecoEnd.minute 0) s1
  { r2.2 with unloadListeners := r2.2.unloadListeners ++ [r2.1] }

/-- The values `_set_target_soc` reads from the battery controller after the
forecast refresh: `battery_capacity_remaining()`, `charge_total()`,
`charge_to_perc()`. -/
structure ArmInputs where
  currentCapacity : ℚ
  targetCapacity : ℚ
  chargeToPerc : ℚ
deriving DecidableEq, Repr

/-- `ChargeService._set_target_soc` (the ArmCycle callback): refreshes the
forecast, stores `charge_to_perc()` in `_perc_target`, registers the
force-charge start trigger at `(eco_start.hour, eco_start.minute, 0)` only if
`charge_total() > battery_capacity_remaining()`, and unconditionally registers
a state-equality watch on `_battery_soc` for `str(int(_perc_target))` calling
`_stop_and_hold_charge`; every handle registered here is appended to both
`_cancel_listeners` and `_unload_listeners`. -/
def set_target_soc (a : ArmInputs) (s : ServiceState) : ServiceState :=
  let s := { s with forecastRefreshes := s.forecastRefreshes + 1,
                    percTarget := a.chargeToPerc }
  let s :=
    if a.targetCapacity > a.currentCapacity then
      let r := register
        (.timeChange .startForceCharge s.ecoStart.hour s.ecoStart.minute 0) s
      { r.2 with cancelListeners := r.2.cancelListeners ++ [r.1],
                 unloadListeners := r.2.unloadListeners ++ [r.1] }
    else s
  let r := register
    (.stateChange .stopAndHoldCharge s.batterySoc (toString (pyInt s.percTarget))) s
  { r.2 with cancelListeners := r.2.cancelListeners ++ [r.1],
             unloadListeners := r.2.unloadListeners ++ [r.1] }

/-- `ChargeService._start_force_charge`: sets `_charge_active = True`, then
calls `fox.start_force_charge()`. -/
def start_force_charge (s : ServiceState) : ServiceState :=
  { s with chargeActive := true,
           foxCommands := s.foxCommands ++ [.startForceCharge] }

/-- `ChargeService._stop_and_hold_charge` (the StopAndHold callback): if
`_charge_active`, clears the flag and calls `fox.stop_force_charge()`; then
unconditionally calls `fox.set_min_soc(_perc_target)` and resets the battery
controller's boost and full flags. -/
def stop_and_hold_charge (s : ServiceState) : ServiceState :=
  let s :=
    if s.chargeActive then
      { s with chargeActive := false,
               foxCommands := s.foxCommands ++ [.stopForceCharge] }
    else s
  { s with foxCommands := s.foxCommands ++ [.setMinSoc s.percTarget],
           batteryCalls := s.batteryCalls ++ [.setBoost false, .setFull false] }

/-- `ChargeService._stop_and_hold_charge` with a fallible
`fox.stop_force_charge()`: when `stopRaises` is set the awaited stop call
raises and the exception propagates (`Except.error` carries the state at the
point of the raise). The code clears `_charge_active` on the line before the
`await`, so the flag is already `False` when the call raises. -/
def stop_and_hold_charge_f (stopRaises : Bool) (s : ServiceState) :
    Except ServiceState ServiceState :=
  if s.chargeActive then
    let s1 := { s with chargeActive := false }
    if stopRaises then
      Except.error s1
    else
      let s2 :=
        { s1 with foxCommands := s1.foxCommands ++ [FoxCommand.stopForceCharge] }
      Except.ok
        { s2 with
          foxCommands := s2.foxCommands ++ [FoxCommand.setMinSoc s2.percTarget],
          batteryCalls :=
            s2.batteryCalls ++ [BatteryCall.setBoost false, BatteryCall.setFull false] }
  else
    Except.ok
      { s with
        foxCommands := s.foxCommands ++ [FoxCommand.setMinSoc s.percTarget],
        batteryCalls :=
          s.batteryCalls ++ [BatteryCall.setBoost false, BatteryCall.setFull false] }

/-- `ChargeService._stop_hold` (the ReleaseHold callback): invokes the
cancellation handle of every entry of `_cancel_listeners` — without removing
anything from the list — then calls `fox.set_min_soc(_original_soc * 100)`. -/
def stop_hold (s : ServiceState) : ServiceState :=
  let s := { s with cancelled := s.cancelled ++ s.cancelListeners }
  { s with foxCommands := s.foxCommands ++ [.setMinSoc ((s.originalSoc : ℚ) * 100)] }

/-- Modelled from the spec: `UnloadController.unload` teardown
(`common/unload_controller.py`, not under `src/`) — §4.1 Teardown "cancels
all lifetime and any still-live cycle listeners": it invokes the handle of
every entry of the unload-listener list. -/
def unloadAll (s : ServiceState) : ServiceState :=
  { s with cancelled := s.cancelled ++ s.unloadListeners }

/-- The state resulting from an exception-carrying or normal outcome. -/
def exceptState (e : Except ServiceState ServiceState) : ServiceState :=
  match e with
  | .error s => s
  | .ok s => s

/-- Did the computation end in a propagating exception? -/
def isRaise (e : Except ServiceState ServiceState) : Bool :=
  match e with
  | .error _ => true
  | .ok _ => false

/-- The scheduler's events: each wraps one callback invocation. -/
inductive Event
  | armCycle (a : ArmInputs)
  | startForce
  | socReached
  | releaseHold
deriving DecidableEq, Repr

/-- One step of the scheduler: dispatches an event to its callback. -/
def step (s : ServiceState) (e : Event) : ServiceState :=
  match e with
  | .armCycle a => set_target_soc a s
  | .startForce => start_force_charge s
  | .socReached => stop_and_hold_charge s
  | .releaseHold => stop_hold s

/-- Running a trace of events from a freshly constructed service. -/
def runTrace (cfg : Config) (es : List Event) : ServiceState :=
  es.foldl step (initService cfg)

/-- Commands that start or stop a force charge (SoC-hold commands excluded). -/
def isChargeCmd : FoxCommand → Bool
  | .startForceCharge => true
  | .stopForceCharge => true
  | .setMinSoc _ => false

/-- The most recent start/stop force-charge command issued, if any. -/
def lastChargeCmd (l : List FoxCommand) : Option FoxCommand :=
  (l.filter isChargeCmd).getLast?

/-- Is this trigger the conditional force-charge start trigger? -/
def Trigger.isStartTrigger : Trigger → Bool
  | .timeChange .startForceCharge _ _ _ => true
  | .timeChange .setTargetSoc _ _ _ => false
  | .timeChange .stopAndHoldCharge _ _ _ => false
  | .timeChange .stopHold _ _ _ => false
  | .stateChange _ _ _ => false

/-- Is this trigger the SoC state-equality watch? -/
def Trigger.isSocWatcher : Trigger → Bool
  | .timeChange _ _ _ _ => false
  | .stateChange _ _ _ => true

/-- Number of start-charge triggers that are registered and whose handle has
never been invoked (live, armed start triggers). -/
def countLiveStart (s : ServiceState) : ℕ :=
  (s.registrations.filter
    (fun p => p.2.isStartTrigger && !(decide (p.1 ∈ s.cancelled)))).length

/-- The registrations a transition from `s` to `s'` added (registrations are
only ever appended). -/
def newRegs (s s' : ServiceState) : List (ℕ × Trigger) :=
  s'.registrations.drop s.registrations.length

/-- Minutes after midnight of a wall-clock time of day. -/
def minutesOfDay (t : TimeOfDay) : ℕ := t.hour * 60 + t.minute

/-- Minutes after midnight of the wall-clock time exactly five minutes before
`t`, wrapping across midnight. -/
def fiveBefore (t : TimeOfDay) : ℕ := (minutesOfDay t + 1440 - 5) % 1440

/-- Written to the spec's words for comparison (§4.1 step 4: "equal to
`round(targetPercent)`", the nearest integer): round half away from zero is
immaterial here, only nearest-integer behaviour on non-halves is compared. -/
def specRoundNearest (q : ℚ) : ℤ := round q

/-- Every registered start trigger's handle is in `_cancel_listeners`. -/
def StartCovered (s : ServiceState) : Prop :=
  ∀ p ∈ s.registrations, p.2.isStartTrigger = true → p.1 ∈ s.cancelListeners

/-- Phases of the daily cycle: outside any cycle, or inside one (between the
pre-window arm callback and the window-end release callback). -/
inductive Phase
  | outside
  | inCycle
deriving DecidableEq, Repr

/-- Admissible single events per §5's wall-clock ordering: ArmCycle opens a
cycle, StartForceCharge and StopAndHold occur within one, ReleaseHold closes
it. -/
inductive WFStep : Phase → Event → Phase → Prop
  | arm (a : ArmInputs) : WFStep .outside (.armCycle a) .inCycle
  | start : WFStep .inCycle .startForce .inCycle
  | stop : WFStep .inCycle .socReached .inCycle
  | rel : WFStep .inCycle .releaseHold .outside

/-- Well-formed event traces: compositions of admissible steps (prefixes of
repeated daily cycles included, via the free final phase). -/
inductive WFTrace : Phase → List Event → Phase → Prop
  | nil (p : Phase) : WFTrace p [] p
  | cons {p q r : Phase} {e : Event} {es : List Event} :
      WFStep p e q → WFTrace q es r → WFTrace p (e :: es) r

/-- Phase-indexed bound on live armed start triggers. -/
def PhaseInv : Phase → ServiceState → Prop
  | .outside, s => countLiveStart s = 0
  | .inCycle, s => countLiveStart s ≤ 1

/-- A fixed sample configuration: eco window 02:30–05:00, SoC sensor
`sensor.battery_soc`, original minimum SoC 20 %. -/
def cfg0 : Config := ⟨⟨2, 30⟩, ⟨5, 0⟩, "sensor.battery_soc", 20⟩

/-- Sample arm-time battery readings: 4 kWh remaining, 8 kWh needed,
target 80 %. -/
def arm0 : ArmInputs := ⟨4, 8, 80⟩

/-- Arm-time readings with a fractional target percentage of 80.7 %. -/
def armFrac : ArmInputs := ⟨4, 8, 807 / 10⟩

/-- A configuration whose eco window starts at 02:02, i.e. with a minute
component below 5. -/
def cfgEarly : Config := ⟨⟨2, 2⟩, ⟨5, 0⟩, "sensor.battery_soc", 20⟩

/-- A state in which a force charge is active: the sample service armed at
02:25 and started at 02:30. -/
def sActive : ServiceState := start_force_charge (set_target_soc arm0 (initService cfg0))

/-- One full happy-path daily cycle: arm, start the force charge, reach the
target SoC, release at window end. -/
def trace0 : List Event := [.armCycle arm0, .startForce, .socReached, .releaseHold]

/-! ## Helper lemmas -/

theorem pyInt_frac : pyInt (807 / 10) = 80 := by
  rw [pyInt, if_pos (by norm_num)]
  norm_num

theorem set_target_soc_chargeActive (a : ArmInputs) (s : ServiceState) :
    (set_target_soc a s).chargeActive = s.chargeActive := by
  unfold set_target_soc register
  split <;> rfl

theorem set_target_soc_foxCommands (a : ArmInputs) (s : ServiceState) :
    (set_target_soc a s).foxCommands = s.foxCommands := by
  unfold set_target_soc register
  split <;> rfl

theorem set_target_soc_cancelled (a : ArmInputs) (s : ServiceState) :
    (set_target_soc a s).cancelled = s.cancelled := by
  unfold set_target_soc register
  split <;> rfl

theorem set_target_soc_registrations (a : ArmInputs) (s : ServiceState) :
    (set_target_soc a s).registrations
      = s.registrations
        ++ (if a.targetCapacity > a.currentCapacity then
              [(s.nextId, .timeChange .startForceCharge s.ecoStart.hour s.ecoStart.minute 0),
               (s.nextId + 1,
                .stateChange .stopAndHoldCharge s.batterySoc (toString (pyInt a.chargeToPerc)))]
            else
              [(s.nextId,
                .stateChange .stopAndHoldCharge s.batterySoc (toString (pyInt a.chargeToPerc)))]) := by
  unfold set_target_soc register
  split <;> simp

theorem set_target_soc_cancelListeners (a : ArmInputs) (s : ServiceState) :
    (set_target_soc a s).cancelListeners
      = s.cancelListeners
        ++ (if a.targetCapacity > a.currentCapacity then [s.nextId, s.nextId + 1]
            else [s.nextId]) := by
  unfold set_target_soc register
  split <;> simp

theorem set_target_soc_unloadListeners (a : ArmInputs) (s : ServiceState) :
    (set_target_soc a s).unloadListeners
      = s.unloadListeners
        ++ (if a.targetCapacity > a.currentCapacity then [s.nextId, s.nextId + 1]
            else [s.nextId]) := by
  unfold set_target_soc register
  split <;> simp

theorem stop_and_hold_charge_proj (s : ServiceState) :
    (stop_and_hold_charge s).registrations = s.registrations ∧
    (stop_and_hold_charge s).cancelled = s.cancelled ∧
    (stop_and_hold_charge s).cancelListeners = s.cancelListeners ∧
    (stop_and_hold_charge s).unloadListeners = s.unloadListeners ∧
    (stop_and_hold_charge s).percTarget = s.percTarget := by
  unfold stop_and_hold_charge
  split <;> exact ⟨rfl, rfl, rfl, rfl, rfl⟩

theorem foldl_invariant {P : ServiceState → Prop}
    (hstep : ∀ s e, P s → P (step s e)) :
    ∀ (es : List Event) (s : ServiceState), P s → P (es.foldl step s) := by
  intro es
  induction es with
  | nil => exact fun s hs => hs
  | cons e es ih => exact fun s hs => ih _ (hstep s e hs)

theorem lastChargeCmd_append_skip (l l₂ : List FoxCommand)
    (h : l₂.filter isChargeCmd = []) :
    lastChargeCmd (l ++ l₂) = lastChargeCmd l := by
  unfold lastChargeCmd
  rw [List.filter_append, h, List.append_nil]

theorem stop_and_hold_charge_chargeActive (s : ServiceState) :
    (stop_and_hold_charge s).chargeActive = false := by
  unfold stop_and_hold_charge
  cases hc : s.chargeActive <;> simp [hc]

theorem stop_and_hold_charge_foxCommands (s : ServiceState) :
    (stop_and_hold_charge s).foxCommands
      = s.foxCommands
        ++ (if s.chargeActive then [.stopForceCharge, .setMinSoc s.percTarget]
            else [.setMinSoc s.percTarget]) := by
  unfold stop_and_hold_charge
  cases hc : s.chargeActive <;> simp [hc]

theorem stop_and_hold_charge_batteryCalls (s : ServiceState) :
    (stop_and_hold_charge s).batteryCalls
      = s.batteryCalls ++ [.setBoost false, .setFull false] := by
  unfold stop_and_hold_charge
  split <;> rfl

theorem chargeCmdInv_step (s : ServiceState) (e : Event)
    (h : s.chargeActive = true ↔ lastChargeCmd s.foxCommands = some .startForceCharge) :
    (step s e).chargeActive = true
      ↔ lastChargeCmd (step s e).foxCommands = some .startForceCharge := by
  cases e with
  | armCycle a =>
      rw [step, set_target_soc_chargeActive, set_target_soc_foxCommands]
      exact h
  | startForce =>
      rw [step]
      simp [start_force_charge, lastChargeCmd, List.filter_append, isChargeCmd,
        List.getLast?_concat]
  | socReached =>
      rw [step, stop_and_hold_charge_chargeActive, stop_and_hold_charge_foxCommands]
      cases hc : s.chargeActive with
      | true =>
          simp [hc, lastChargeCmd, List.filter_append, isChargeCmd, List.getLast?_concat]
      | false =>
          rw [hc] at h
          rw [if_neg (by simp [hc]), lastChargeCmd_append_skip _ _ (by simp [isChargeCmd])]
          exact h
  | releaseHold =>
      rw [step]
      show s.chargeActive = true ↔ lastChargeCmd (_ ++ [FoxCommand.setMinSoc _]) = _
      rw [lastChargeCmd_append_skip _ _ (by simp [isChargeCmd])]
      exact h

theorem stop_hold_proj (s : ServiceState) :
    (stop_hold s).registrations = s.registrations ∧
    (stop_hold s).cancelListeners = s.cancelListeners ∧
    (stop_hold s).unloadListeners = s.unloadListeners ∧
    (stop_hold s).cancelled = s.cancelled ++ s.cancelListeners ∧
    (stop_hold s).foxCommands
      = s.foxCommands ++ [.setMinSoc ((s.originalSoc : ℚ) * 100)] :=
  ⟨rfl, rfl, rfl, rfl, rfl⟩

theorem startCovered_init (cfg : Config) : StartCovered (initService cfg) := by
  intro p hp hst
  simp [initService, register, unloadControllerInitListeners] at hp
  rcases hp with h1 | h2
  · rw [h1] at hst
    simp [Trigger.isStartTrigger] at hst
  · rw [h2] at hst
    simp [Trigger.isStartTrigger] at hst

theorem startCovered_step (s : ServiceState) (e : Event) (h : StartCovered s) :
    StartCovered (step s e) := by
  cases e with
  | armCycle a =>
      intro p hp hst
      rw [step, set_target_soc_registrations] at hp
      rw [step, set_target_soc_cancelListeners]
      rcases List.mem_append.mp hp with hold | hnew
      · exact List.mem_append_left _ (h p hold hst)
      · by_cases hgt : a.targetCapacity > a.currentCapacity
        · rw [if_pos hgt] at hnew
          rw [if_pos hgt]
          simp only [List.mem_cons, List.not_mem_nil, or_false] at hnew
          rcases hnew with rfl | rfl
          · simp
          · simp [Trigger.isStartTrigger] at hst
        · rw [if_neg hgt] at hnew
          simp only [List.mem_cons, List.not_mem_nil, or_false] at hnew
          rw [hnew] at hst
          simp [Trigger.isStartTrigger] at hst
  | startForce => exact h
  | socReached =>
      intro p hp hst
      rw [step, (stop_and_hold_charge_proj s).1] at hp
      rw [step, (stop_and_hold_charge_proj s).2.2.1]
      exact h p hp hst
  | releaseHold => exact h

theorem countLiveStart_init (cfg : Config) : countLiveStart (initService cfg) = 0 := rfl

theorem countLiveStart_start_force (s : ServiceState) :
    countLiveStart (start_force_charge s) = countLiveStart s := rfl

theorem countLiveStart_stop_and_hold (s : ServiceState) :
    countLiveStart (stop_and_hold_charge s) = countLiveStart s := by
  unfold countLiveStart
  rw [(stop_and_hold_charge_proj s).1, (stop_and_hold_charge_proj s).2.1]

theorem countLiveStart_set_target_soc (a : ArmInputs) (s : ServiceState) :
    countLiveStart (set_target_soc a s) ≤ countLiveStart s + 1 := by
  unfold countLiveStart
  rw [set_target_soc_registrations, set_target_soc_cancelled, List.filter_append,
    List.length_append]
  apply Nat.add_le_add_left
  split
  · simp only [List.filter, Trigger.isStartTrigger]
    split <;> simp
  · simp [List.filter, Trigger.isStartTrigger]

theorem countLiveStart_stop_hold (s : ServiceState) (h : StartCovered s) :
    countLiveStart (stop_hold s) = 0 := by
  unfold countLiveStart
  rw [(stop_hold_proj s).1, (stop_hold_proj s).2.2.2.1, List.length_eq_zero,
    List.filter_eq_nil_iff]
  intro p hp
  by_cases hst : p.2.isStartTrigger = true
  · have hmem := h p hp hst
    simp [hst, List.mem_append, hmem]
  · simp [hst]

theorem phaseInv_wfStep {p q : Phase} {e : Event} (s : ServiceState)
    (hw : WFStep p e q) (hcov : StartCovered s) (hinv : PhaseInv p s) :
    PhaseInv q (step s e) := by
  cases hw with
  | arm a =>
      show countLiveStart (set_target_soc a s) ≤ 1
      calc countLiveStart (set_target_soc a s) ≤ countLiveStart s + 1 :=
            countLiveStart_set_target_soc a s
        _ = 1 := by rw [hinv]
  | start =>
      show countLiveStart (start_force_charge s) ≤ 1
      rw [countLiveStart_start_force]
      exact hinv
  | stop =>
      show countLiveStart (stop_and_hold_charge s) ≤ 1
      rw [countLiveStart_stop_and_hold]
      exact hinv
  | rel =>
      show countLiveStart (stop_hold s) = 0
      exact countLiveStart_stop_hold s hcov

theorem phaseInv_wfTrace {p : Phase} {es : List Event} {q : Phase}
    (hw : WFTrace p es q) :
    ∀ s, StartCovered s → PhaseInv p s →
      StartCovered (es.foldl step s) ∧ PhaseInv q (es.foldl step s) := by
  induction hw with
  | nil _ => exact fun s hc hi => ⟨hc, hi⟩
  | cons hstep _ ih =>
      intro s hc hi
      exact ih _ (startCovered_step _ _ hc) (phaseInv_wfStep _ hstep hc hi)

theorem chargeCmdInv_runTrace (cfg : Config) (es : List Event) :
    (runTrace cfg es).chargeActive = true
      ↔ lastChargeCmd (runTrace cfg es).foxCommands = some .startForceCharge := by
  refine foldl_invariant chargeCmdInv_step es (initService cfg) ?_
  simp [initService, register, unloadControllerInitListeners, lastChargeCmd]

/-! ## Claim theorems -/

/-- C1, counterexample: after one ordinary cycle (ArmCycle at 02:25 with a
charge shortfall, then ReleaseHold at 05:00) the cycle-listener list still
holds the two handles registered by ArmCycle — `_stop_hold` does not clear
`_cancel_listeners`, so the set is not empty after ReleaseHold completes. -/
theorem C1_listener_set_not_cleared_cex :
    (stop_hold (set_target_soc arm0 (initService cfg0))).cancelListeners = [2, 3] ∧
    (stop_hold (set_target_soc arm0 (initService cfg0))).cancelListeners ≠ [] :=
  ⟨rfl, by decide⟩

/-- C1, amended: ReleaseHold (`_stop_hold`) invokes the cancellation handle of
every cycle listener but removes none of them: the cycle-listener list is
unchanged (so handles accumulate across cycles), and every handle in it is
appended to the invocation journal. -/
theorem C1_release_hold_cancels_but_never_clears (s : ServiceState) :
    (stop_hold s).cancelListeners = s.cancelListeners ∧
    (stop_hold s).cancelled = s.cancelled ++ s.cancelListeners ∧
    (stop_hold s).registrations = s.registrations :=
  ⟨rfl, rfl, rfl⟩

/-- C2, counterexample: with a freshly computed `targetPercent` of 80.7, the
SoC watcher registered by ArmCycle is an equality watch for the string "80" —
`str(int(80.7))`, a truncation — whereas the nearest integer to 80.7 is 81. -/
theorem C2_round_vs_truncation_cex :
    ((newRegs (initService cfg0) (set_target_soc armFrac (initService cfg0))).filter
        (fun p => p.2.isSocWatcher)).map Prod.snd
      = [.stateChange .stopAndHoldCharge "sensor.battery_soc" "80"] ∧
    specRoundNearest (807 / 10) = 81 ∧
    toString (specRoundNearest (807 / 10)) ≠ "80" := by
  have h81 : specRoundNearest (807 / 10) = 81 := by
    rw [specRoundNearest, round_eq]
    norm_num
  refine ⟨?_, h81, ?_⟩
  · unfold newRegs
    rw [set_target_soc_registrations, List.drop_left]
    norm_num [armFrac, pyInt_frac, Trigger.isSocWatcher, Trigger.isStartTrigger,
      initService, register, unloadControllerInitListeners, cfg0]
    decide
  · rw [h81]
    decide

/-- C2, amended: every invocation of ArmCycle registers exactly one SoC
watcher on the configured sensor, an equality watch whose value is
`str(int(targetPercent))` — the freshly computed target truncated toward
zero, not rounded to the nearest integer — calling StopAndHold. -/
theorem C2_soc_watcher_equality_on_truncated_target (s : ServiceState) (a : ArmInputs) :
    ((newRegs s (set_target_soc a s)).filter (fun p => p.2.isSocWatcher)).map Prod.snd
      = [.stateChange .stopAndHoldCharge s.batterySoc (toString (pyInt a.chargeToPerc))] := by
  unfold newRegs
  rw [set_target_soc_registrations, List.drop_left]
  split <;> simp [Trigger.isSocWatcher]

/-- C3: for an `ecoStart` of 02:02 the constructor registers the ArmCycle
trigger with time pattern hour 2, minute `2 - 5 = -3`: the minute component is
not a wall-clock minute at all, and the pattern differs from hour 1, minute 57
— the wall-clock time 5 minutes before `ecoStart` (117 minutes after
midnight). -/
theorem C3_early_minute_invalid_trigger :
    (initService cfgEarly).registrations.map Prod.snd
      = [.timeChange .setTargetSoc 2 (-3) 0, .timeChange .stopHold 5 0 0] ∧
    ¬ (0 ≤ (-3 : ℤ) ∧ (-3 : ℤ) ≤ 59) ∧
    fiveBefore cfgEarly.ecoStart = 117 ∧
    117 / 60 = 1 ∧ 117 % 60 = 57 ∧
    ((2 : ℤ), (-3 : ℤ)) ≠ ((1 : ℤ), (57 : ℤ)) := by
  refine ⟨by decide, by decide, by decide, by decide, by decide, by decide⟩

/-- C4: an invocation of ArmCycle registers a cycle trigger firing at
`ecoStart` calling StartForceCharge exactly when `charge_total()` exceeds
`battery_capacity_remaining()`; otherwise no start-charge trigger is
registered by that invocation. -/
theorem C4_start_trigger_iff_capacity_short (s : ServiceState) (a : ArmInputs) :
    ((newRegs s (set_target_soc a s)).filter (fun p => p.2.isStartTrigger)).map Prod.snd
      = (if a.targetCapacity > a.currentCapacity
          then [.timeChange .startForceCharge s.ecoStart.hour s.ecoStart.minute 0]
          else []) ∧
    ((∃ p ∈ newRegs s (set_target_soc a s), p.2.isStartTrigger = true)
      ↔ a.targetCapacity > a.currentCapacity) := by
  unfold newRegs
  rw [set_target_soc_registrations, List.drop_left]
  constructor
  · split <;> simp [Trigger.isStartTrigger]
  · constructor
    · rintro ⟨p, hp, hst⟩
      by_contra hgt
      rw [if_neg hgt] at hp
      simp only [List.mem_cons, List.not_mem_nil, or_false] at hp
      rw [hp] at hst
      simp [Trigger.isStartTrigger] at hst
    · intro hgt
      rw [if_pos hgt]
      exact ⟨_, List.mem_cons_self _ _, rfl⟩

/-- C5: StopAndHold always ends with `chargeActive` false, issues the stop
command exactly when a charge was active, always issues exactly one
`set_min_soc(targetPercent)` and resets the battery model's boost and full
flags; a second consecutive invocation issues no further stop command. -/
theorem C5_stop_and_hold_guarded (s : ServiceState) :
    (stop_and_hold_charge s).chargeActive = false ∧
    (stop_and_hold_charge s).foxCommands
      = s.foxCommands
        ++ (if s.chargeActive then [.stopForceCharge, .setMinSoc s.percTarget]
            else [.setMinSoc s.percTarget]) ∧
    (stop_and_hold_charge s).batteryCalls
      = s.batteryCalls ++ [.setBoost false, .setFull false] ∧
    (stop_and_hold_charge (stop_and_hold_charge s)).foxCommands
      = (stop_and_hold_charge s).foxCommands ++ [.setMinSoc s.percTarget] := by
  refine ⟨stop_and_hold_charge_chargeActive s, stop_and_hold_charge_foxCommands s,
    stop_and_hold_charge_batteryCalls s, ?_⟩
  rw [stop_and_hold_charge_foxCommands (stop_and_hold_charge s),
    stop_and_hold_charge_chargeActive, (stop_and_hold_charge_proj s).2.2.2.2]
  simp

/-- C6, counterexample: in a state with an active force charge, a raising
`stop_force_charge` call does propagate out of StopAndHold, but the flag
`chargeActive` is not still true at that point — the callback clears it on
the line before the awaited call. -/
theorem C6_flag_false_after_failed_stop_cex :
    isRaise (stop_and_hold_charge_f true sActive) = true ∧
    (exceptState (stop_and_hold_charge_f true sActive)).chargeActive ≠ true := by
  constructor <;> decide

/-- C6, amended: if the charger API's `stop_force_charge` raises during a
StopAndHold invocation with `chargeActive` true, the failure propagates out of
the callback with no local recovery and no command journalled — but
`chargeActive` has already been cleared to false (the flag is toggled before
the awaited call), so the inconsistent state is the scheduler believing the
charge stopped while the charger may still be force charging. -/
theorem C6_stop_failure_propagates_with_flag_cleared (s : ServiceState)
    (h : s.chargeActive = true) :
    stop_and_hold_charge_f true s = Except.error { s with chargeActive := false } ∧
    isRaise (stop_and_hold_charge_f true s) = true ∧
    (exceptState (stop_and_hold_charge_f true s)).chargeActive = false ∧
    (exceptState (stop_and_hold_charge_f true s)).foxCommands = s.foxCommands := by
  unfold stop_and_hold_charge_f
  rw [if_pos h]
  exact ⟨rfl, rfl, rfl, rfl⟩

/-- C6 witness: the amended theorem applied to the concrete charging state
reached after one arm and one start. -/
theorem C6_stop_failure_witness :
    sActive.chargeActive = true ∧
    (stop_and_hold_charge_f true sActive
        = Except.error { sActive with chargeActive := false } ∧
     isRaise (stop_and_hold_charge_f true sActive) = true ∧
     (exceptState (stop_and_hold_charge_f true sActive)).chargeActive = false ∧
     (exceptState (stop_and_hold_charge_f true sActive)).foxCommands
        = sActive.foxCommands) :=
  ⟨rfl, C6_stop_failure_propagates_with_flag_cleared sActive rfl⟩

/-- C7: immediately after construction, exactly the two lifetime triggers are
registered (the pre-window ArmCycle time trigger and the `ecoEnd` ReleaseHold
time trigger, both held only in the unload-listener list), the cycle-listener
list is empty, `chargeActive` is false, and no charger-control command has
been issued. -/
theorem C7_construction_state (cfg : Config) :
    (initService cfg).unloadListeners = [0, 1] ∧
    (initService cfg).registrations.map Prod.snd
      = [.timeChange .setTargetSoc cfg.ecoStart.hour ((cfg.ecoStart.minute : ℤ) - 5) 0,
         .timeChange .stopHold cfg.ecoEnd.hour cfg.ecoEnd.minute 0] ∧
    (initService cfg).cancelListeners = [] ∧
    (initService cfg).chargeActive = false ∧
    (initService cfg).foxCommands = [] :=
  ⟨rfl, rfl, rfl, rfl, rfl⟩

/-- C8: every ReleaseHold invocation issues exactly one further charger
command, `set_min_soc(originalMinSoc * 100)`, whatever the current cycle
state. -/
theorem C8_release_hold_restores_original_soc (s : ServiceState) :
    (stop_hold s).foxCommands
      = s.foxCommands ++ [.setMinSoc ((s.originalSoc : ℚ) * 100)] :=
  rfl

/-- C9: along every well-formed daily event trace, `chargeActive` is true
exactly when the last start/stop command issued is a start (a start with no
matching stop yet), and at most one live armed start-charge trigger exists —
so StartForceCharge can fire at most once per cycle. -/
theorem C9_single_active_charge_invariant (cfg : Config) (es : List Event) (p : Phase)
    (hwf : WFTrace Phase.outside es p) :
    ((runTrace cfg es).chargeActive = true
      ↔ lastChargeCmd (runTrace cfg es).foxCommands = some .startForceCharge) ∧
    countLiveStart (runTrace cfg es) ≤ 1 := by
  refine ⟨chargeCmdInv_runTrace cfg es, ?_⟩
  have h := (phaseInv_wfTrace hwf (initService cfg) (startCovered_init cfg)
    (countLiveStart_init cfg)).2
  unfold runTrace
  cases p with
  | outside =>
      have h0 : countLiveStart (es.foldl step (initService cfg)) = 0 := h
      omega
  | inCycle => exact h

/-- C9 witness: the invariant applied to one concrete happy-path cycle. -/
theorem C9_single_active_charge_witness :
    WFTrace Phase.outside trace0 Phase.outside ∧
    (((runTrace cfg0 trace0).chargeActive = true
       ↔ lastChargeCmd (runTrace cfg0 trace0).foxCommands = some .startForceCharge) ∧
     countLiveStart (runTrace cfg0 trace0) ≤ 1) :=
  have hwf : WFTrace Phase.outside trace0 Phase.outside :=
    WFTrace.cons (WFStep.arm arm0) (WFTrace.cons WFStep.start
      (WFTrace.cons WFStep.stop (WFTrace.cons WFStep.rel (WFTrace.nil _))))
  ⟨hwf, C9_single_active_charge_invariant cfg0 trace0 Phase.outside hwf⟩

/-- C10: ArmCycle appends the very same fresh handles to the cycle-listener
list and to the lifetime unload-listener list; ReleaseHold removes entries
from neither list while journalling one invocation per cycle handle (so a
second ReleaseHold invokes all of them again); the subset invariant
"cycle listeners ⊆ unload listeners" is preserved by every operation; and
teardown invokes every unload handle, hence every still-live cycle handle. -/
theorem C10_cycle_listeners_subset_unload (s : ServiceState) (a : ArmInputs)
    (hsub : s.cancelListeners ⊆ s.unloadListeners) :
    (∃ ids, (set_target_soc a s).cancelListeners = s.cancelListeners ++ ids ∧
            (set_target_soc a s).unloadListeners = s.unloadListeners ++ ids) ∧
    (stop_hold s).cancelListeners = s.cancelListeners ∧
    (stop_hold s).unloadListeners = s.unloadListeners ∧
    (stop_hold s).cancelled = s.cancelled ++ s.cancelListeners ∧
    (stop_hold (stop_hold s)).cancelled
      = s.cancelled ++ s.cancelListeners ++ s.cancelListeners ∧
    (set_target_soc a s).cancelListeners ⊆ (set_target_soc a s).unloadListeners ∧
    (start_force_charge s).cancelListeners ⊆ (start_force_charge s).unloadListeners ∧
    (stop_and_hold_charge s).cancelListeners
      ⊆ (stop_and_hold_charge s).unloadListeners ∧
    (stop_hold s).cancelListeners ⊆ (stop_hold s).unloadListeners ∧
    (unloadAll s).cancelled = s.cancelled ++ s.unloadListeners ∧
    (∀ x ∈ s.cancelListeners, x ∈ (unloadAll s).cancelled) := by
  refine ⟨⟨(if a.targetCapacity > a.currentCapacity then [s.nextId, s.nextId + 1]
        else [s.nextId]),
      set_target_soc_cancelListeners a s, set_target_soc_unloadListeners a s⟩,
    rfl, rfl, rfl, rfl, ?_, hsub, ?_, hsub, rfl, ?_⟩
  · rw [set_target_soc_cancelListeners, set_target_soc_unloadListeners]
    intro x hx
    rcases List.mem_append.mp hx with hx | hx
    · exact List.mem_append_left _ (hsub hx)
    · exact List.mem_append_right _ hx
  · rw [(stop_and_hold_charge_proj s).2.2.1, (stop_and_hold_charge_proj s).2.2.2.1]
    exact hsub
  · intro x hx
    exact List.mem_append_right _ (hsub hx)

/-- C10 witness: the listener-ownership facts applied to a freshly
constructed service and the sample arm inputs. -/
theorem C10_cycle_listeners_subset_unload_witness :
    (initService cfg0).cancelListeners ⊆ (initService cfg0).unloadListeners ∧
    ((∃ ids, (set_target_soc arm0 (initService cfg0)).cancelListeners
            = (initService cfg0).cancelListeners ++ ids ∧
          (set_target_soc arm0 (initService cfg0)).unloadListeners
            = (initService cfg0).unloadListeners ++ ids) ∧
     (stop_hold (initService cfg0)).cancelListeners
        = (initService cfg0).cancelListeners ∧
     (stop_hold (initService cfg0)).unloadListeners
        = (initService cfg0).unloadListeners ∧
     (stop_hold (initService cfg0)).cancelled
        = (initService cfg0).cancelled ++ (initService cfg0).cancelListeners ∧
     (stop_hold (stop_hold (initService cfg0))).cancelled
        = (initService cfg0).cancelled ++ (initService cfg0).cancelListeners
            ++ (initService cfg0).cancelListeners ∧
     (set_target_soc arm0 (initService cfg0)).cancelListeners
        ⊆ (set_target_soc arm0 (initService cfg0)).unloadListeners ∧
     (start_force_charge (initService cfg0)).cancelListeners
        ⊆ (start_force_charge (initService cfg0)).unloadListeners ∧
     (stop_and_hold_charge (initService cfg0)).cancelListeners
        ⊆ (stop_and_hold_charge (initService cfg0)).unloadListeners ∧
     (stop_hold (initService cfg0)).cancelListeners
        ⊆ (stop_hold (initService cfg0)).unloadListeners ∧
     (unloadAll (initService cfg0)).cancelled
        = (initService cfg0).cancelled ++ (initService cfg0).unloadListeners ∧
     (∀ x ∈ (initService cfg0).cancelListeners,
        x ∈ (unloadAll (initService cfg0)).cancelled)) :=
  have hsub : (initService cfg0).cancelListeners ⊆ (initService cfg0).unloadListeners :=
    List.nil_subset _
  ⟨hsub, C10_cycle_listeners_subset_unload (initService cfg0) arm0 hsub⟩

end FoxessEM
